import Mathlib

/-!
Verification of `atomiclock_async` (src/src/lib.rs), a non-blocking async mutex.

The shallow embedding models the shared state of one `AtomicLockAsync<T>`
handle as a `World`: the external Exclusive Cell (`atomiclock::AtomicLock<T>`,
used only through its interface: atomic `try_acquire` succeeding exactly when
the cell is free, and release on guard drop), the waiter registry
(`atomiclock_spinlock::Lock<Vec<Arc<AtomicWaker>>>`, as the list of ids of the
registered wakers), and the store of `Arc<AtomicWaker>` allocations (each
waker's registration slot is shared between registry and future, so it is kept
in the store, addressed by id).  Each operation of the crate becomes a state
transformer that additionally emits the list of its observable events in
program order, so that ordering claims (attempt-before-register,
release-before-wake) can be stated.  Mutual exclusion is stated over an
interleaving model: a step relation whose steps are the atomic actions the
operations perform on shared state.
-/

namespace AtomicLockAsyncSpec

/-- Mirrors `std::task::Poll`: a poll either completes with a value or stays
pending. -/
inductive Poll (α : Type) where
  | ready (a : α)
  | pending
deriving DecidableEq

/-- True exactly for `Poll.ready`. -/
def Poll.isReady {α : Type} : Poll α → Bool
  | .ready _ => true
  | .pending => false

/-- Observable events emitted by the operations, in program order.  `C` is the
type of resumption contexts (`std::task::Waker` values obtained from
`cx.waker()`). -/
inductive Event (C : Type) where
  | tryAcquire (success : Bool)
  | createWaker (id : Nat)
  | registerWaker (id : Nat) (cx : C)
  | lockRegistry
  | insertWaker (id : Nat)
  | unlockRegistry
  | releaseCell
  | wake (id : Nat)
deriving DecidableEq

/-- Shared state of one `AtomicLockAsync<T>` handle (lib.rs lines 17-21)
together with the store of allocated `Arc<AtomicWaker>`s.  `value` and
`cellLocked` model the external Exclusive Cell per its interface (spec §4.1):
`try_acquire` succeeds exactly when `cellLocked = false`.  `wakelist` is the
registry: the ids of the wakers currently pushed into the spin-locked vector.
`wakerOf` gives each allocated waker's currently registered resumption
context (`AtomicWaker::register`); the slot is shared through `Arc` between
the registry and the future, hence lives in the store.  `nextId` allocates
fresh waker ids. -/
structure World (T C : Type) where
  value : T
  cellLocked : Bool
  wakelist : List Nat
  wakerOf : Nat → Option C
  nextId : Nat

variable {T C : Type}

/-- The cell's `try_acquire` (`atomiclock::AtomicLock::lock`), per its
interface: succeeds iff the cell is free, locking it; never blocks. -/
def World.tryAcquire (w : World T C) : Option (World T C) :=
  if w.cellLocked then none else some { w with cellLocked := true }

/-- `AtomicLockAsync::new` (lib.rs lines 43-48): a fresh handle whose cell is
free and holds `t`, with an empty wakelist. -/
def World.new (t : T) : World T C :=
  { value := t
    cellLocked := false
    wakelist := []
    wakerOf := fun _ => none
    nextId := 0 }

/-- `AtomicLockAsync::into_inner` (lib.rs lines 78-80), delegating to the
cell's `into_inner` (interface: returns the protected value). -/
def World.into_inner (w : World T C) : T :=
  w.value

/-- `AtomicLockAsync::lock_if_available` (lib.rs lines 54-57): delegate to the
cell's try-acquire; wrap a success in a guard (modelled as `Unit`, since the
guard's content is the access token); otherwise return `none`.  Nothing else
of the world is touched. -/
def World.lock_if_available (w : World T C) : Option Unit × World T C :=
  match w.tryAcquire with
  | some w1 => (some (), w1)
  | none => (none, w)

/-- `LockFuture<'a, T>` (lib.rs lines 33-36): the acquisition request; holds
the lazily created waker, by id, once contended. -/
structure LockFuture where
  registered_waker : Option Nat
deriving DecidableEq

/-- `AtomicLockAsync::lock` (lib.rs lines 62-64): build a fresh `LockFuture`
with no registered waker; the shared state is untouched. -/
def World.lock (w : World T C) : LockFuture × World T C :=
  ({ registered_waker := none }, w)

/-- Result of one `LockFuture::poll`: the poll outcome, the future's state
after the poll, the shared state after the poll, and the emitted events in
program order. -/
structure PollOut (T C : Type) where
  res : Poll Unit
  fut : LockFuture
  world : World T C
  events : List (Event C)

/-- `<LockFuture as Future>::poll` (lib.rs lines 109-131).  First
`self.lock.lock.lock()` (the cell's try-acquire); on success return `Ready`
with the guard.  On failure: if a waker was already created for this request,
re-register the current context on it and return `Pending`; otherwise create
a fresh `AtomicWaker`, register the context on it, push it onto the wakelist
under the registry spin lock, remember it on the future, and return
`Pending`. -/
def LockFuture.poll (fut : LockFuture) (w : World T C) (cx : C) : PollOut T C :=
  match w.tryAcquire with
  | some w1 =>
      { res := Poll.ready ()
        fut := fut
        world := w1
        events := [Event.tryAcquire true] }
  | none =>
      match fut.registered_waker with
      | some id =>
          { res := Poll.pending
            fut := fut
            world := { w with wakerOf := fun j => if j = id then some cx else w.wakerOf j }
            events := [Event.tryAcquire false, Event.registerWaker id cx] }
      | none =>
          let id := w.nextId
          { res := Poll.pending
            fut := { registered_waker := some id }
            world :=
              { w with
                wakerOf := fun j => if j = id then some cx else w.wakerOf j
                wakelist := w.wakelist ++ [id]
                nextId := w.nextId + 1 }
            events :=
              [Event.tryAcquire false, Event.createWaker id, Event.registerWaker id cx,
               Event.lockRegistry, Event.insertWaker id, Event.unlockRegistry] }

/-- Result of `Guard::drop`: the shared state after the drop, and the emitted
events in program order. -/
structure DropOut (T C : Type) where
  world : World T C
  events : List (Event C)

/-- `<Guard as Drop>::drop` (lib.rs lines 83-95).  First
`ManuallyDrop::drop(&mut self._guard)` releases the cell; then, under the
registry spin lock, `drain(..)` empties the wakelist and `wake()` is called on
every drained waker (each `AtomicWaker::wake` takes its registered
context). -/
def Guard.drop (w : World T C) : DropOut T C :=
  let w1 := { w with cellLocked := false }
  let w2 :=
    { w1 with
      wakelist := []
      wakerOf := fun j => if j ∈ w1.wakelist then none else w1.wakerOf j }
  { world := w2
    events :=
      [Event.releaseCell, Event.lockRegistry] ++ w.wakelist.map Event.wake ++
        [Event.unlockRegistry] }

/-- `LockWarnFuture<'a, T>` (lib.rs lines 137-140): the diagnostic wrapper;
the perfwarn interval is modelled as `Option Unit` (open or closed). -/
structure LockWarnFuture where
  underlying_future : LockFuture
  perfwarn_interval : Option Unit
deriving DecidableEq

/-- `AtomicLockAsync::lock_warn` (lib.rs lines 71-73): wrap `self.lock()` with
no interval open yet. -/
def World.lock_warn (w : World T C) : LockWarnFuture × World T C :=
  let p := w.lock
  ({ underlying_future := p.1, perfwarn_interval := none }, p.2)

/-- Result of one `LockWarnFuture::poll`. -/
structure WarnPollOut (T C : Type) where
  res : Poll Unit
  fut : LockWarnFuture
  world : World T C
  events : List (Event C)

/-- `<LockWarnFuture as Future>::poll` (lib.rs lines 145-156): open the
interval if none is open, delegate to the inner future's poll, and on `Ready`
take (close) the interval. -/
def LockWarnFuture.poll (fut : LockWarnFuture) (w : World T C) (cx : C) : WarnPollOut T C :=
  let interval :=
    match fut.perfwarn_interval with
    | none => some ()
    | some i => some i
  let p := fut.underlying_future.poll w cx
  let interval2 :=
    match p.res with
    | Poll.ready _ => none
    | Poll.pending => interval
  { res := p.res
    fut := { underlying_future := p.fut, perfwarn_interval := interval2 }
    world := p.world
    events := p.events }

/-- `impl From<T> for AtomicLockAsync<T>` (lib.rs lines 177-181): delegates to
`new`. -/
def World.fromValue (t : T) : World T C :=
  World.new t

/-- `impl Default for AtomicLockAsync<T>` (lib.rs lines 168-172):
`AtomicLockAsync::new(T::default())`; the host type's default value is passed
explicitly as `d`. -/
def World.defaultHandle (d : T) : World T C :=
  World.new d

/-- Number of registry insertions recorded in an event list. -/
def insertCount : List (Event C) → Nat
  | [] => 0
  | Event.insertWaker _ :: rest => insertCount rest + 1
  | Event.tryAcquire _ :: rest => insertCount rest
  | Event.createWaker _ :: rest => insertCount rest
  | Event.registerWaker _ _ :: rest => insertCount rest
  | Event.lockRegistry :: rest => insertCount rest
  | Event.unlockRegistry :: rest => insertCount rest
  | Event.releaseCell :: rest => insertCount rest
  | Event.wake _ :: rest => insertCount rest

/-- Total number of registry insertions over a sequence of polls of one
request, threading the future's state through the polls; the shared state and
resumption context seen at each poll are arbitrary (other tasks may change
them between polls). -/
def pollInserts : LockFuture → List (World T C × C) → Nat
  | _, [] => 0
  | fut, (w, cx) :: rest =>
      let p := fut.poll w cx
      insertCount p.events + pollInserts p.fut rest

/-- Global state for the interleaving model: the shared world plus the number
of live guards of the handle. -/
structure GState (T C : Type) where
  world : World T C
  guards : Nat

/-- Atomic actions on the shared state, as performed by `lock_if_available`,
`LockFuture::poll` and `Guard::drop`, under arbitrary interleaving.  The
cell's try-acquire and release are single atomic actions per its interface;
each registry mutation happens under the registry's spin lock and is one
step.  A guard becomes live exactly when a try-acquire succeeds (both
`lock_if_available` and a `Ready` poll wrap the returned token in a guard
immediately), and a guard stops being live when its drop runs, whose first
action releases the cell (lib.rs line 85); the subsequent drain is a separate
step. -/
inductive Step {T C : Type} : GState T C → GState T C → Prop where
  | acquire (s : GState T C) (h : s.world.cellLocked = false) :
      Step s { world := { s.world with cellLocked := true }, guards := s.guards + 1 }
  | acquireFail (s : GState T C) (h : s.world.cellLocked = true) :
      Step s s
  | release (s : GState T C) (h : 0 < s.guards) :
      Step s { world := { s.world with cellLocked := false }, guards := s.guards - 1 }
  | insert (s : GState T C) (cx : C) :
      Step s
        { s with
          world :=
            { s.world with
              wakerOf := fun j => if j = s.world.nextId then some cx else s.world.wakerOf j
              wakelist := s.world.wakelist ++ [s.world.nextId]
              nextId := s.world.nextId + 1 } }
  | rebind (s : GState T C) (id : Nat) (cx : C) :
      Step s
        { s with
          world :=
            { s.world with
              wakerOf := fun j => if j = id then some cx else s.world.wakerOf j } }
  | drain (s : GState T C) :
      Step s
        { s with
          world :=
            { s.world with
              wakelist := []
              wakerOf := fun j => if j ∈ s.world.wakelist then none else s.world.wakerOf j } }

/-- Invariant tying the cell's state to the number of live guards: guards are
created only by a successful try-acquire and destroyed only by a release. -/
def Inv (s : GState T C) : Prop :=
  s.guards ≤ 1 ∧ (s.world.cellLocked = true ↔ s.guards = 1)

/-! ## Theorems -/

/-- C6: `lock_if_available` never suspends: it returns a guard exactly when
the cell's try-acquire succeeds (the cell was free), returns `none`
immediately on an already-locked handle leaving the whole world unchanged,
and its only effect is the cell's own state change — wakelist, waker store
and allocator are untouched. -/
theorem lock_if_available_spec (w : World T C) :
    (w.lock_if_available.1.isSome = !w.cellLocked) ∧
    (w.cellLocked = true → w.lock_if_available = (none, w)) ∧
    (w.cellLocked = false →
      w.lock_if_available = (some (), { w with cellLocked := true })) ∧
    w.lock_if_available.2.wakelist = w.wakelist ∧
    w.lock_if_available.2.wakerOf = w.wakerOf ∧
    w.lock_if_available.2.nextId = w.nextId := by
  cases h : w.cellLocked <;>
    simp [World.lock_if_available, World.tryAcquire, h]

/-- C6 witness: on a concrete locked handle, `lock_if_available` returns
`none` and leaves the state unchanged. -/
theorem lock_if_available_spec_witness :
    World.lock_if_available
        ({ value := 0, cellLocked := true, wakelist := [], wakerOf := fun _ => none,
           nextId := 0 } : World Nat Nat) =
      (none,
        { value := 0, cellLocked := true, wakelist := [], wakerOf := fun _ => none,
          nextId := 0 }) :=
  (lock_if_available_spec _).2.1 rfl

/-- C8: `lock()` is lazy: the returned request's waker slot is empty and the
shared state is unchanged by constructing it. -/
theorem lock_lazy (w : World T C) :
    w.lock.1.registered_waker = none ∧ w.lock.2 = w := by
  exact ⟨rfl, rfl⟩

/-- C9: `new(v)` builds a handle with an empty wakelist, and `into_inner` on
it returns the protected value: `new(v).into_inner() = v`. -/
theorem new_into_inner (t : T) :
    (World.new t : World T C).wakelist = [] ∧
    World.into_inner (World.new t : World T C) = t := by
  exact ⟨rfl, rfl⟩

/-- C10: the alternative constructors agree with `new`: `From::from(t)` builds
the same handle as `new(t)` (hence `from(t).into_inner() = t`), and
`Default::default()` builds the same handle as `new(T::default())` (the
default value is `d`); both are plain constructions with no side effect. -/
theorem from_default_agree_new (t d : T) :
    (World.fromValue t : World T C) = World.new t ∧
    World.into_inner (World.fromValue t : World T C) = t ∧
    (World.defaultHandle d : World T C) = World.new d := by
  exact ⟨rfl, rfl, rfl⟩

/-- C1: every poll of a `LockFuture` first attempts try-acquire on the cell —
whatever the future's state, the first emitted event is the attempt, so every
resumption performs a fresh acquisition attempt; and when the attempt
succeeds the poll returns `Ready` with the guard, the future is unchanged,
the world records only the cell acquisition, and no waker is created,
registered or inserted on that poll (the events are the lone successful
attempt). -/
theorem poll_attempt_first_ready_on_success (fut : LockFuture) (w : World T C) (cx : C) :
    (fut.poll w cx).events.head? = some (Event.tryAcquire (!w.cellLocked)) ∧
    (w.cellLocked = false →
      (fut.poll w cx).res = Poll.ready () ∧
      (fut.poll w cx).fut = fut ∧
      (fut.poll w cx).world = { w with cellLocked := true } ∧
      (fut.poll w cx).events = [Event.tryAcquire true]) := by
  constructor
  · cases h : w.cellLocked
    · simp [LockFuture.poll, World.tryAcquire, h]
    · cases hr : fut.registered_waker <;>
        simp [LockFuture.poll, World.tryAcquire, h, hr]
  · intro h
    simp [LockFuture.poll, World.tryAcquire, h]

/-- C1 witness: polling a fresh request on a concrete free handle returns
`Ready` with the lone successful attempt as its event trace. -/
theorem poll_attempt_first_ready_on_success_witness :
    (LockFuture.poll ⟨none⟩ (World.new 0 : World Nat Nat) 7).res = Poll.ready () ∧
    (LockFuture.poll ⟨none⟩ (World.new 0 : World Nat Nat) 7).events =
      [Event.tryAcquire true] := by
  have h := poll_attempt_first_ready_on_success (⟨none⟩ : LockFuture)
    (World.new 0 : World Nat Nat) 7
  exact ⟨(h.2 rfl).1, (h.2 rfl).2.2.2⟩

/-- Helper: a poll of a request that already holds a waker keeps the waker
slot occupied and performs no registry insertion. -/
theorem poll_preserves_some (fut : LockFuture) (w : World T C) (cx : C)
    (h : fut.registered_waker.isSome = true) :
    (fut.poll w cx).fut.registered_waker.isSome = true ∧
    insertCount (fut.poll w cx).events = 0 := by
  cases hc : w.cellLocked
  · exact ⟨by simpa [LockFuture.poll, World.tryAcquire, hc] using h,
      by simp [LockFuture.poll, World.tryAcquire, hc, insertCount]⟩
  · cases hr : fut.registered_waker with
    | none => simp [hr] at h
    | some id =>
        exact ⟨by simp [LockFuture.poll, World.tryAcquire, hc, hr],
          by simp [LockFuture.poll, World.tryAcquire, hc, hr, insertCount]⟩

/-- Helper: once the waker slot is occupied, no further sequence of polls of
the same request ever inserts into the registry. -/
theorem pollInserts_zero_of_some (fut : LockFuture) (steps : List (World T C × C))
    (h : fut.registered_waker.isSome = true) :
    pollInserts fut steps = 0 := by
  induction steps generalizing fut with
  | nil => simp [pollInserts]
  | cons step rest ih =>
      obtain ⟨w, cx⟩ := step
      have hp := poll_preserves_some fut w cx h
      simp [pollInserts, hp.2, ih _ hp.1]

/-- Helper: any sequence of polls of one request inserts at most one entry
into the registry. -/
theorem pollInserts_le_one (fut : LockFuture) (steps : List (World T C × C)) :
    pollInserts fut steps ≤ 1 := by
  induction steps generalizing fut with
  | nil => simp [pollInserts]
  | cons step rest ih =>
      obtain ⟨w, cx⟩ := step
      cases hr : fut.registered_waker with
      | some id =>
          have h0 := pollInserts_zero_of_some fut ((w, cx) :: rest) (by simp [hr])
          rw [h0]
          exact Nat.zero_le 1
      | none =>
          cases hc : w.cellLocked with
          | false =>
              have hrest := ih fut
              simpa [pollInserts, LockFuture.poll, World.tryAcquire, hc, insertCount]
                using hrest
          | true =>
              have hrest :=
                pollInserts_zero_of_some (⟨some w.nextId⟩ : LockFuture) rest (by simp)
              simp [pollInserts, LockFuture.poll, World.tryAcquire, hc, hr, insertCount,
                hrest]

/-- C2: on the first contended poll the request creates exactly one waker,
binds it to the current context, pushes it into the registry and returns
`Pending` (the event trace is attempt, create, register, then the insertion
under the registry lock); on every later contended poll it only re-binds the
existing waker to the current context, leaves the registry untouched, and
does not insert again; and over any sequence of polls of one request at most
one registry insertion ever happens. -/
theorem poll_single_registration (fut : LockFuture) (w : World T C) (cx : C)
    (steps : List (World T C × C)) :
    (fut.registered_waker = none → w.cellLocked = true →
      (fut.poll w cx).res = Poll.pending ∧
      (fut.poll w cx).fut.registered_waker = some w.nextId ∧
      (fut.poll w cx).world.wakelist = w.wakelist ++ [w.nextId] ∧
      (fut.poll w cx).world.wakerOf w.nextId = some cx ∧
      (fut.poll w cx).world.nextId = w.nextId + 1 ∧
      (fut.poll w cx).events =
        [Event.tryAcquire false, Event.createWaker w.nextId,
         Event.registerWaker w.nextId cx, Event.lockRegistry,
         Event.insertWaker w.nextId, Event.unlockRegistry]) ∧
    (∀ id, fut.registered_waker = some id → w.cellLocked = true →
      (fut.poll w cx).res = Poll.pending ∧
      (fut.poll w cx).fut = fut ∧
      (fut.poll w cx).world.wakelist = w.wakelist ∧
      (fut.poll w cx).world.wakerOf id = some cx ∧
      (fut.poll w cx).events = [Event.tryAcquire false, Event.registerWaker id cx]) ∧
    pollInserts fut steps ≤ 1 := by
  refine ⟨?_, ?_, pollInserts_le_one fut steps⟩
  · intro hr hc
    simp [LockFuture.poll, World.tryAcquire, hc, hr]
  · intro id hr hc
    simp [LockFuture.poll, World.tryAcquire, hc, hr]

/-- C2 witness: on a concrete locked handle, the first contended poll of a
fresh request registers waker `0` and pushes it, and a later contended poll
of the request (now holding waker `0`) re-binds it without growing the
registry. -/
theorem poll_single_registration_witness :
    (LockFuture.poll ⟨none⟩
        ({ value := 0, cellLocked := true, wakelist := [], wakerOf := fun _ => none,
           nextId := 0 } : World Nat Nat) 7).res = Poll.pending ∧
    (LockFuture.poll ⟨none⟩
        ({ value := 0, cellLocked := true, wakelist := [], wakerOf := fun _ => none,
           nextId := 0 } : World Nat Nat) 7).world.wakelist = [0] ∧
    (LockFuture.poll ⟨some 0⟩
        ({ value := 0, cellLocked := true, wakelist := [0], wakerOf := fun _ => none,
           nextId := 1 } : World Nat Nat) 9).world.wakelist = [0] ∧
    pollInserts (⟨none⟩ : LockFuture)
      [(({ value := 0, cellLocked := true, wakelist := [], wakerOf := fun _ => none,
           nextId := 0 } : World Nat Nat), 7)] ≤ 1 := by
  have h1 := poll_single_registration (⟨none⟩ : LockFuture)
    ({ value := 0, cellLocked := true, wakelist := [], wakerOf := fun _ => none,
       nextId := 0 } : World Nat Nat) 7
    [(({ value := 0, cellLocked := true, wakelist := [], wakerOf := fun _ => none,
         nextId := 0 } : World Nat Nat), 7)]
  have h2 := poll_single_registration (⟨some 0⟩ : LockFuture)
    ({ value := 0, cellLocked := true, wakelist := [0], wakerOf := fun _ => none,
       nextId := 1 } : World Nat Nat) 9 []
  exact ⟨(h1.1 rfl rfl).1, (h1.1 rfl rfl).2.2.1, (h2.2.1 0 rfl rfl).2.2.1, h1.2.2⟩

/-- C3: `Guard::drop` is a fixed two-phase sequence: the cell release is the
first emitted event, the drain-and-wake of the registry happens strictly
after it inside the registry's critical section, and the release never
recurs after or interleaved with the drain (no event after the head is a
release). -/
theorem guard_drop_release_before_wake (w : World T C) :
    (Guard.drop w).events =
      Event.releaseCell :: Event.lockRegistry ::
        (w.wakelist.map Event.wake ++ [Event.unlockRegistry]) ∧
    (Guard.drop w).events.head? = some Event.releaseCell ∧
    (∀ e, e ∈ (Guard.drop w).events.tail → e ≠ Event.releaseCell) := by
  refine ⟨rfl, rfl, ?_⟩
  intro e he
  have ht : (Guard.drop w).events.tail =
      Event.lockRegistry :: (w.wakelist.map Event.wake ++ [Event.unlockRegistry]) := rfl
  rw [ht] at he
  rcases List.mem_cons.mp he with h | he2
  · subst h
    simp
  rcases List.mem_append.mp he2 with h | h
  · rcases List.mem_map.mp h with ⟨a, _, hw⟩
    subst hw
    simp
  · have h2 := List.mem_singleton.mp h
    subst h2
    simp

/-- C3 witness: on a concrete handle with one registered waker, the event at
the head is the release and the registry-lock event of the drain phase is in
the tail, hence distinct from the release. -/
theorem guard_drop_release_before_wake_witness :
    (Event.lockRegistry : Event Nat) ≠ Event.releaseCell :=
  (guard_drop_release_before_wake
      ({ value := 0, cellLocked := true, wakelist := [5], wakerOf := fun _ => none,
         nextId := 6 } : World Nat Nat)).2.2
    Event.lockRegistry (by simp [Guard.drop])

/-- C4: when a guard is dropped, every waker registered in the registry at
that moment is woken (a wake event is emitted for each id in the wakelist,
and only for those), and the registry is empty afterwards — nothing is
skipped and nothing is retained. -/
theorem guard_drop_drains_all (w : World T C) :
    (Guard.drop w).world.wakelist = [] ∧
    (∀ id, id ∈ w.wakelist → Event.wake id ∈ (Guard.drop w).events) ∧
    (∀ id, Event.wake id ∈ (Guard.drop w).events → id ∈ w.wakelist) := by
  refine ⟨rfl, ?_, ?_⟩
  · intro id hid
    simp [Guard.drop, hid]
  · intro id hid
    have ht : (Guard.drop w).events =
        Event.releaseCell :: Event.lockRegistry ::
          (w.wakelist.map Event.wake ++ [Event.unlockRegistry]) := rfl
    rw [ht] at hid
    rcases List.mem_cons.mp hid with h | hid2
    · exact absurd h (by simp)
    rcases List.mem_cons.mp hid2 with h | hid3
    · exact absurd h (by simp)
    rcases List.mem_append.mp hid3 with h | h
    · rcases List.mem_map.mp h with ⟨a, ha, hw⟩
      injection hw with h3
      exact h3 ▸ ha
    · exact absurd (List.mem_singleton.mp h) (by simp)

/-- C4 witness: dropping the guard of a concrete handle with wakers `3` and
`5` registered wakes both and leaves the registry empty. -/
theorem guard_drop_drains_all_witness :
    (Guard.drop
        ({ value := 0, cellLocked := true, wakelist := [3, 5], wakerOf := fun _ => none,
           nextId := 6 } : World Nat Nat)).world.wakelist = [] ∧
    Event.wake 3 ∈
      (Guard.drop
          ({ value := 0, cellLocked := true, wakelist := [3, 5], wakerOf := fun _ => none,
             nextId := 6 } : World Nat Nat)).events ∧
    Event.wake 5 ∈
      (Guard.drop
          ({ value := 0, cellLocked := true, wakelist := [3, 5], wakerOf := fun _ => none,
             nextId := 6 } : World Nat Nat)).events := by
  have h := guard_drop_drains_all
    ({ value := 0, cellLocked := true, wakelist := [3, 5], wakerOf := fun _ => none,
       nextId := 6 } : World Nat Nat)
  exact ⟨h.1, h.2.1 3 (by simp), h.2.1 5 (by simp)⟩

/-- Helper: the invariant holds in the initial state of a freshly constructed
handle. -/
theorem inv_init (t : T) : Inv ({ world := World.new t, guards := 0 } : GState T C) := by
  refine ⟨by simp, ?_⟩
  simp [World.new]

/-- Helper: every atomic step of the interleaving model preserves the
invariant. -/
theorem inv_step {s s2 : GState T C} (hinv : Inv s) (hst : Step s s2) : Inv s2 := by
  obtain ⟨hle, hiff⟩ := hinv
  cases hst with
  | acquire h =>
      have h0 : s.guards = 0 := by
        rcases Nat.lt_or_ge s.guards 1 with h1 | h1
        · omega
        · exfalso
          have h2 : s.guards = 1 := le_antisymm hle h1
          rw [hiff.mpr h2] at h
          exact Bool.noConfusion h
      refine ⟨?_, ?_⟩
      · show s.guards + 1 ≤ 1
        omega
      · simp [h0]
  | acquireFail h =>
      exact ⟨hle, hiff⟩
  | release h =>
      have h1 : s.guards = 1 := le_antisymm hle h
      refine ⟨?_, ?_⟩
      · show s.guards - 1 ≤ 1
        omega
      · simp [h1]
  | insert cx =>
      exact ⟨hle, hiff⟩
  | rebind id cx =>
      exact ⟨hle, hiff⟩
  | drain =>
      exact ⟨hle, hiff⟩

/-- C5: mutual exclusion. In the interleaving model of arbitrary concurrent
`lock_if_available`, `lock`/poll and guard-drop activity starting from a
freshly constructed handle, every reachable state has at most one live guard
for the handle. -/
theorem mutual_exclusion (t : T) (s : GState T C)
    (h : Relation.ReflTransGen Step
      ({ world := World.new t, guards := 0 } : GState T C) s) :
    s.guards ≤ 1 := by
  have hinv : Inv s := by
    induction h with
    | refl => exact inv_init t
    | tail h1 h2 ih => exact inv_step ih h2
  exact hinv.1

/-- C5 witness: after a concrete successful acquisition step from a fresh
handle, exactly one guard is live, which is at most one. -/
theorem mutual_exclusion_witness :
    ({ world := { (World.new 0 : World Nat Nat) with cellLocked := true },
       guards := 1 } : GState Nat Nat).guards ≤ 1 :=
  mutual_exclusion 0 _
    (Relation.ReflTransGen.single
      (Step.acquire ({ world := World.new 0, guards := 0 } : GState Nat Nat) rfl))

/-- C7: the diagnostic wrapper is a pure decoration of the inner request:
every poll returns exactly the inner poll's outcome, shared-state effect and
events, and threads the inner future's state unchanged; the interval is open
(`some`) after any poll that stays pending — in particular it is opened on
the first poll — and is closed (`none`), exactly once, by the poll that
completes. -/
theorem lock_warn_poll_delegates (fut : LockWarnFuture) (w : World T C) (cx : C) :
    (fut.poll w cx).res = (fut.underlying_future.poll w cx).res ∧
    (fut.poll w cx).world = (fut.underlying_future.poll w cx).world ∧
    (fut.poll w cx).events = (fut.underlying_future.poll w cx).events ∧
    (fut.poll w cx).fut.underlying_future = (fut.underlying_future.poll w cx).fut ∧
    (fut.poll w cx).fut.perfwarn_interval =
      (if (fut.underlying_future.poll w cx).res.isReady then none else some ()) := by
  refine ⟨rfl, rfl, rfl, rfl, ?_⟩
  cases hres : (fut.underlying_future.poll w cx).res with
  | ready a =>
      simp [LockWarnFuture.poll, hres, Poll.isReady]
  | pending =>
      cases hint : fut.perfwarn_interval <;>
        simp [LockWarnFuture.poll, hres, hint, Poll.isReady]

end AtomicLockAsyncSpec
